import Mathlib

/-!
tokenizer-cli: provider registry and dispatch core.

A shallow embedding of `internal/providers`, `internal/providers/openai`,
`internal/providers/google` and `internal/tokenizer`, followed by the properties
proved about it.

Conventions of the embedding:

* Go strings are Lean `String`s (well-formed Unicode text). Go compares strings
  byte-wise on their UTF-8 encoding, which on well-formed text is the
  lexicographic order on code points, i.e. the order of Lean's `String`.
* A Go `error` is represented by its message; `(T, error)` results are
  `Except String T`.
* A Go `map[string]V` that is only read is an association list in the order of
  its literal; a map that is built is its lookup function.
* The process-wide `registry` variable is an explicit argument of the
  dispatcher's operations; `tokenizer.registry` is the value `init` gives it.
* Code that lives outside the repository (Unicode case tables, the order in
  which `range` visits a map, the tiktoken and Vertex AI tokenizers) is
  collected in `Deps` and passed explicitly.
-/

/-- External collaborators of the repository. -/
structure Deps where
  /-- The lower-case mapping of the Unicode tables, used for runes above `MaxASCII`. -/
  caseTable : Char → Char
  /-- The order in which a `range` loop enumerates the keys of a map, given the keys. -/
  rangeOrder : List String → List String
  /-- Models `tiktoken.GetEncoding(name)`; the encoder maps a text to its token ids. -/
  GetEncoding : String → Except String (String → List Nat)
  /-- Models `tokenizer.New(model)` of Vertex AI; the tokenizer maps a text to
  `TotalTokens` or fails. -/
  NewTokenizer : String → Except String (String → Except String Int)

namespace unicode

/-- Models `unicode.ToLower`: ASCII upper-case letters are shifted by `'a' - 'A'`,
other ASCII runes are unchanged, the rest goes through the case tables. -/
def ToLower (d : Deps) (r : Char) : Char :=
  if r.toNat ≤ 127 then
    if 'A'.toNat ≤ r.toNat ∧ r.toNat ≤ 'Z'.toNat then
      Char.ofNat (r.toNat + ('a'.toNat - 'A'.toNat))
    else r
  else d.caseTable r

end unicode

namespace strings

/-- Models `strings.ToLower`: every rune is mapped through `unicode.ToLower`
(the ASCII fast path of the library computes the same string). -/
def ToLower (d : Deps) (s : String) : String :=
  String.mk (s.data.map (unicode.ToLower d))

end strings

namespace sort

/-- Models `sort.Strings`: the slice rearranged in increasing order. -/
def Strings (x : List String) : List String :=
  x.insertionSort (fun a b => a ≤ b)

end sort

namespace providers

/-- The `Provider` interface of `internal/providers/provider.go`. -/
structure Provider where
  Name : String
  CountTokens : String → String → Except String Int
  SupportsModel : String → Bool
  IsExact : Bool
  Models : List String

end providers

namespace openai

structure modelConfig where
  encoding : String

/-- The `models` catalog of `openai.go`. -/
def models : List (String × modelConfig) :=
  [ ("gpt-4o", ⟨"o200k_base"⟩),
    ("gpt-4o-mini", ⟨"o200k_base"⟩),
    ("gpt-4.1", ⟨"o200k_base"⟩),
    ("gpt-4.1-mini", ⟨"o200k_base"⟩),
    ("gpt-4.1-nano", ⟨"o200k_base"⟩),
    ("o1", ⟨"o200k_base"⟩),
    ("o1-mini", ⟨"o200k_base"⟩),
    ("o1-pro", ⟨"o200k_base"⟩),
    ("o3", ⟨"o200k_base"⟩),
    ("o3-mini", ⟨"o200k_base"⟩),
    ("o4-mini", ⟨"o200k_base"⟩),
    ("gpt-4", ⟨"cl100k_base"⟩),
    ("gpt-4-turbo", ⟨"cl100k_base"⟩),
    ("gpt-3.5-turbo", ⟨"cl100k_base"⟩) ]

def Name : String := "OpenAI"

def CountTokens (d : Deps) (text model : String) : Except String Int :=
  match models.lookup (strings.ToLower d model) with
  | none => .error ("unsupported OpenAI model: " ++ model)
  | some cfg =>
    match d.GetEncoding cfg.encoding with
    | .error err => .error ("failed to get encoding " ++ cfg.encoding ++ ": " ++ err)
    | .ok tke => .ok ((tke text).length : Int)

def SupportsModel (d : Deps) (model : String) : Bool :=
  (models.lookup (strings.ToLower d model)).isSome

def IsExact : Bool := true

def Models (d : Deps) : List String :=
  d.rangeOrder (models.map Prod.fst)

/-- The value of `openai.New()` seen through the `Provider` interface. -/
def New (d : Deps) : providers.Provider :=
  { Name := Name
    CountTokens := CountTokens d
    SupportsModel := SupportsModel d
    IsExact := IsExact
    Models := Models d }

end openai

namespace google

/-- The `models` catalog of `google.go`. -/
def models : List (String × String) :=
  [ ("gemini-1.5", "gemini-1.5-flash"),
    ("gemini-1.5-flash", "gemini-1.5-flash"),
    ("gemini-1.5-pro", "gemini-1.5-pro") ]

def Name : String := "Google"

def CountTokens (d : Deps) (text model : String) : Except String Int :=
  match models.lookup (strings.ToLower d model) with
  | none => .error ("unsupported Google model: " ++ model)
  | some vertexModel =>
    match d.NewTokenizer vertexModel with
    | .error err => .error ("failed to create tokenizer for " ++ vertexModel ++ ": " ++ err)
    | .ok tok =>
      match tok text with
      | .error err => .error ("failed to count tokens: " ++ err)
      | .ok totalTokens => .ok totalTokens

def SupportsModel (d : Deps) (model : String) : Bool :=
  (models.lookup (strings.ToLower d model)).isSome

def IsExact : Bool := true

def Models (d : Deps) : List String :=
  d.rangeOrder (models.map Prod.fst)

/-- The value of `google.New()` seen through the `Provider` interface. -/
def New (d : Deps) : providers.Provider :=
  { Name := Name
    CountTokens := CountTokens d
    SupportsModel := SupportsModel d
    IsExact := IsExact
    Models := Models d }

end google

namespace tokenizer

open providers

def DefaultModel : String := "gpt-4.1"

structure Result where
  Model : String
  Provider : String
  TokenCount : Int
  IsEstimate : Bool
  deriving DecidableEq, Repr

/-- The registry as `init` sets it. -/
def registry (d : Deps) : List Provider :=
  [openai.New d, google.New d]

/-- The message of the error built on the last line of `CountTokens`. -/
def unsupportedModel (modelName : String) : String :=
  "unsupported model: " ++ modelName ++ ". Use --list to see supported models"

def CountTokens (registry : List Provider) (text modelName : String) : Except String Result :=
  match registry with
  | [] => .error (unsupportedModel modelName)
  | provider :: rest =>
    if provider.SupportsModel modelName then
      match provider.CountTokens text modelName with
      | .error err => .error err
      | .ok count =>
        .ok { Model := modelName
              Provider := provider.Name
              TokenCount := count
              IsEstimate := !provider.IsExact }
    else CountTokens rest text modelName

/-- A `map[string][]string` under construction, as its lookup function. -/
abbrev ModelMap := String → Option (List String)

/-- The map returned by `make(map[string][]string)`. -/
def ModelMap.empty : ModelMap := fun _ => none

/-- The assignment `result[key] = value`. -/
def ModelMap.set (result : ModelMap) (key : String) (value : List String) : ModelMap :=
  fun k => if k = key then some value else result k

def ListModels (registry : List Provider) : ModelMap :=
  registry.foldl
    (fun result provider => result.set provider.Name (sort.Strings provider.Models))
    ModelMap.empty

def GetDefaultModel : String := DefaultModel

def GetProviderInfo (registry : List Provider) (modelName : String) : String × Bool × Bool :=
  match registry with
  | [] => ("", false, false)
  | provider :: rest =>
    if provider.SupportsModel modelName then (provider.Name, provider.IsExact, true)
    else GetProviderInfo rest modelName

end tokenizer

/-! ## Sample environment and providers used to instantiate the theorems -/

/-- An environment in which every external call succeeds: non-ASCII runes are
left alone, `range` visits keys in reverse, each token is one character. -/
def sampleDeps : Deps :=
  { caseTable := fun r => r
    rangeOrder := List.reverse
    GetEncoding := fun _ => .ok (fun text => text.data.map Char.toNat)
    NewTokenizer := fun _ => .ok (fun text => .ok (text.length : Int)) }

/-- A provider with a fixed catalog (matched verbatim) and a fixed outcome of
`CountTokens`. -/
def stubProvider (name : String) (catalog : List String) (exact : Bool)
    (outcome : Except String Int) : providers.Provider :=
  { Name := name
    CountTokens := fun _ _ => outcome
    SupportsModel := fun model => catalog.contains model
    IsExact := exact
    Models := catalog }

/-! ## Traversal lemmas -/

namespace tokenizer

open providers

theorem CountTokens_skip (pre rest : List Provider) (text m : String)
    (hpre : ∀ q ∈ pre, q.SupportsModel m = false) :
    CountTokens (pre ++ rest) text m = CountTokens rest text m := by
  induction pre with
  | nil => rfl
  | cons q pre ih =>
    have hq : q.SupportsModel m = false := hpre q (List.mem_cons_self _ _)
    have hrest : ∀ r ∈ pre, r.SupportsModel m = false :=
      fun r hr => hpre r (List.mem_cons_of_mem _ hr)
    rw [List.cons_append, CountTokens]
    simp only [hq]
    exact ih hrest

theorem CountTokens_head (p : Provider) (post : List Provider) (text m : String)
    (hp : p.SupportsModel m = true) :
    CountTokens (p :: post) text m =
      (p.CountTokens text m).map
        (fun n => { Model := m, Provider := p.Name, TokenCount := n, IsEstimate := !p.IsExact }) := by
  simp only [CountTokens, hp, if_true]
  cases p.CountTokens text m <;> rfl

theorem GetProviderInfo_skip (pre rest : List Provider) (m : String)
    (hpre : ∀ q ∈ pre, q.SupportsModel m = false) :
    GetProviderInfo (pre ++ rest) m = GetProviderInfo rest m := by
  induction pre with
  | nil => rfl
  | cons q pre ih =>
    have hq : q.SupportsModel m = false := hpre q (List.mem_cons_self _ _)
    have hrest : ∀ r ∈ pre, r.SupportsModel m = false :=
      fun r hr => hpre r (List.mem_cons_of_mem _ hr)
    rw [List.cons_append, GetProviderInfo]
    simp only [hq]
    exact ih hrest

/-- Either nobody supports the model, or the registry splits at its first supporter. -/
theorem first_supporter (registry : List Provider) (m : String) :
    (∀ q ∈ registry, q.SupportsModel m = false) ∨
    ∃ pre p post, registry = pre ++ p :: post ∧
      (∀ q ∈ pre, q.SupportsModel m = false) ∧ p.SupportsModel m = true := by
  induction registry with
  | nil => left; intro q hq; cases hq
  | cons a rest ih =>
    cases ha : a.SupportsModel m with
    | true => right; exact ⟨[], a, rest, rfl, ⟨fun q hq => absurd hq (List.not_mem_nil q), ha⟩⟩
    | false =>
      rcases ih with hnone | ⟨pre, p, post, hsplit, hpre, hp⟩
      · left
        intro q hq
        rcases List.mem_cons.1 hq with rfl | hq
        · exact ha
        · exact hnone q hq
      · right
        refine ⟨a :: pre, p, post, by rw [hsplit]; rfl, ?_, hp⟩
        intro q hq
        rcases List.mem_cons.1 hq with rfl | hq
        · exact ha
        · exact hpre q hq

theorem CountTokens_none (registry : List Provider) (text m : String)
    (hnone : ∀ q ∈ registry, q.SupportsModel m = false) :
    CountTokens registry text m = .error (unsupportedModel m) := by
  have h := CountTokens_skip registry [] text m hnone
  rw [List.append_nil] at h
  rw [h]; rfl

theorem GetProviderInfo_none (registry : List Provider) (m : String)
    (hnone : ∀ q ∈ registry, q.SupportsModel m = false) :
    GetProviderInfo registry m = ("", false, false) := by
  have h := GetProviderInfo_skip registry [] m hnone
  rw [List.append_nil] at h
  rw [h]; rfl

end tokenizer

/-! ## The dispatcher on an arbitrary registry -/

namespace tokenizer

open providers

/-- C1, first-match dispatch: when `p` is the first provider of the registry that
supports `m` (everything before it declines) and `p.CountTokens text m` succeeds with
`n`, the dispatcher succeeds with the result carrying `m` as supplied, the name of
`p`, the count `n` and the negation of `p.IsExact`, whatever providers follow `p`. -/
theorem CountTokens_first_match (pre post : List Provider) (p : Provider)
    (text m : String) (n : Int)
    (hpre : ∀ q ∈ pre, q.SupportsModel m = false)
    (hp : p.SupportsModel m = true)
    (hn : p.CountTokens text m = .ok n) :
    CountTokens (pre ++ p :: post) text m =
      .ok { Model := m, Provider := p.Name, TokenCount := n, IsEstimate := !p.IsExact } := by
  rw [CountTokens_skip pre (p :: post) text m hpre, CountTokens_head p post text m hp, hn]
  rfl

/-- Instance of C1: the second provider is the first supporter of `"GPT-X"`; the
third one supports it too and is ignored; the model name keeps its capitals. -/
theorem CountTokens_first_match_witness :
    CountTokens
        [stubProvider "A" ["a"] true (.ok 1),
         stubProvider "B" ["GPT-X"] false (.ok 7),
         stubProvider "C" ["GPT-X"] true (.ok 9)]
        "hello" "GPT-X"
      = .ok { Model := "GPT-X", Provider := "B", TokenCount := 7, IsEstimate := true } :=
  CountTokens_first_match [stubProvider "A" ["a"] true (.ok 1)]
    [stubProvider "C" ["GPT-X"] true (.ok 9)] (stubProvider "B" ["GPT-X"] false (.ok 7))
    "hello" "GPT-X" 7 (by decide) (by decide) rfl

/-- C3, provider failure is final: when the first provider that supports `m` fails
with `e`, the dispatcher fails with exactly `e`, whatever providers follow it. -/
theorem CountTokens_provider_failure (pre post : List Provider) (p : Provider)
    (text m e : String)
    (hpre : ∀ q ∈ pre, q.SupportsModel m = false)
    (hp : p.SupportsModel m = true)
    (he : p.CountTokens text m = .error e) :
    CountTokens (pre ++ p :: post) text m = .error e := by
  rw [CountTokens_skip pre (p :: post) text m hpre, CountTokens_head p post text m hp, he]
  rfl

/-- Instance of C3: the failing provider is followed by one that supports the model
and would have answered 9. -/
theorem CountTokens_provider_failure_witness :
    CountTokens
        [stubProvider "A" ["a"] true (.ok 1),
         stubProvider "B" ["m"] true (.error "encoder unavailable"),
         stubProvider "C" ["m"] true (.ok 9)]
        "hello" "m"
      = .error "encoder unavailable" ∧
    CountTokens [stubProvider "C" ["m"] true (.ok 9)] "hello" "m"
      = .ok { Model := "m", Provider := "C", TokenCount := 9, IsEstimate := false } :=
  ⟨CountTokens_provider_failure [stubProvider "A" ["a"] true (.ok 1)]
    [stubProvider "C" ["m"] true (.ok 9)] (stubProvider "B" ["m"] true (.error "encoder unavailable"))
    "hello" "m" "encoder unavailable" (by decide) (by decide) rfl, rfl⟩

end tokenizer

/-! ## The listing as a fold -/

namespace tokenizer

open providers

/-- The loop body of `ListModels`. -/
theorem ListModels_step_other (result : ModelMap) (q : Provider) (k : String)
    (hk : q.Name ≠ k) :
    (result.set q.Name (sort.Strings q.Models)) k = result k := by
  have hk2 : k ≠ q.Name := fun h => hk h.symm
  simp [ModelMap.set, hk2]

theorem foldl_set_untouched (post : List Provider) (init : ModelMap) (k : String)
    (hpost : ∀ q ∈ post, q.Name ≠ k) :
    (post.foldl (fun result provider => result.set provider.Name (sort.Strings provider.Models))
      init) k = init k := by
  induction post generalizing init with
  | nil => rfl
  | cons q post ih =>
    rw [List.foldl_cons, ih _ (fun r hr => hpost r (List.mem_cons_of_mem _ hr))]
    exact ListModels_step_other init q k (hpost q (List.mem_cons_self _ _))

/-- The entry of a key is written by the last provider carrying that name. -/
theorem ListModels_last (pre post : List Provider) (p : Provider)
    (hpost : ∀ q ∈ post, q.Name ≠ p.Name) :
    ListModels (pre ++ p :: post) p.Name = some (sort.Strings p.Models) := by
  unfold ListModels
  rw [List.foldl_append, List.foldl_cons, foldl_set_untouched post _ p.Name hpost]
  simp [ModelMap.set]

theorem foldl_set_isSome (l : List Provider) (init : ModelMap) (k : String) :
    ((l.foldl (fun result provider => result.set provider.Name (sort.Strings provider.Models))
      init) k).isSome = true ↔ (init k).isSome = true ∨ ∃ p ∈ l, p.Name = k := by
  induction l generalizing init with
  | nil => simp
  | cons q l ih =>
    rw [List.foldl_cons, ih]
    by_cases hq : k = q.Name
    · subst hq
      simp [ModelMap.set]
    · have hq2 : ¬ q.Name = k := fun h => hq h.symm
      simp [ModelMap.set, hq, hq2]

theorem ListModels_keys (reg : List Provider) (k : String) :
    (ListModels reg k).isSome = true ↔ ∃ p ∈ reg, p.Name = k := by
  unfold ListModels
  rw [foldl_set_isSome]
  simp [ModelMap.empty]

/-- Providers with a name other than `k'` do not influence the entry of `k'`. -/
theorem foldl_set_filter (l : List Provider) (init init2 : ModelMap) (k k2 : String)
    (hk : k2 ≠ k) (hinit : init k2 = init2 k2) :
    (l.foldl (fun result provider => result.set provider.Name (sort.Strings provider.Models))
      init) k2 =
    ((l.filter (fun q => decide (q.Name ≠ k))).foldl
      (fun result provider => result.set provider.Name (sort.Strings provider.Models)) init2) k2 := by
  induction l generalizing init init2 with
  | nil => exact hinit
  | cons q l ih =>
    by_cases hq : q.Name = k
    · have hfilter : (q :: l).filter (fun q => decide (q.Name ≠ k)) =
          l.filter (fun q => decide (q.Name ≠ k)) := by simp [List.filter_cons, hq]
      rw [hfilter, List.foldl_cons]
      apply ih
      rw [ListModels_step_other init q k2 (by rw [hq]; exact fun h => hk h.symm)]
      exact hinit
    · have hfilter : (q :: l).filter (fun q => decide (q.Name ≠ k)) =
          q :: l.filter (fun q => decide (q.Name ≠ k)) := by simp [List.filter_cons, hq]
      rw [hfilter, List.foldl_cons, List.foldl_cons]
      apply ih
      simp [ModelMap.set, hinit]

theorem sort_Strings_perm (x : List String) : (sort.Strings x).Perm x :=
  List.perm_insertionSort _ x

theorem sort_Strings_sorted (x : List String) : (sort.Strings x).Sorted (fun a b => a ≤ b) :=
  List.sorted_insertionSort _ x

theorem sort_Strings_of_perm (x y : List String) (h : x.Perm y) :
    sort.Strings x = sort.Strings y :=
  List.eq_of_perm_of_sorted
    (((sort_Strings_perm x).trans h).trans (sort_Strings_perm y).symm)
    (sort_Strings_sorted x) (sort_Strings_sorted y)

end tokenizer

/-! ## The shipped catalogs -/

theorem lookup_isSome_iff {β : Type} (l : List (String × β)) (k : String) :
    (l.lookup k).isSome = true ↔ k ∈ l.map Prod.fst := by
  induction l with
  | nil => simp
  | cons a l ih =>
    obtain ⟨a1, a2⟩ := a
    by_cases h : k = a1
    · subst h
      simp [List.lookup]
    · have hb : (k == a1) = false := by simpa using h
      simp [List.lookup, hb, ih, h]

theorem ToLower_idem (d : Deps)
    (hidem : ∀ r, unicode.ToLower d (unicode.ToLower d r) = unicode.ToLower d r) (s : String) :
    strings.ToLower d (strings.ToLower d s) = strings.ToLower d s := by
  unfold strings.ToLower
  congr 1
  rw [List.map_map]
  apply List.map_congr_left
  intro r _
  exact hidem r

theorem sampleDeps_idem (r : Char) :
    unicode.ToLower sampleDeps (unicode.ToLower sampleDeps r) = unicode.ToLower sampleDeps r := by
  unfold unicode.ToLower
  by_cases h1 : r.toNat ≤ 127
  · by_cases h2 : 'A'.toNat ≤ r.toNat ∧ r.toNat ≤ 'Z'.toNat
    · simp only [h1, h2, if_true, and_self]
      obtain ⟨h3, h4⟩ := h2
      have h5 : 65 ≤ r.toNat := h3
      have h6 : r.toNat ≤ 90 := h4
      generalize r.toNat = n at *
      interval_cases n <;> decide
    · simp only [h1, h2, if_true, if_false]
  · simp only [h1, if_false, sampleDeps]

theorem sampleDeps_range (keys : List String) : (sampleDeps.rangeOrder keys).Perm keys :=
  List.reverse_perm keys

theorem openai_keys_lower (d : Deps) :
    ∀ k ∈ openai.models.map Prod.fst, strings.ToLower d k = k := by
  intro k hk
  simp only [openai.models, List.map, List.mem_cons, List.mem_singleton, List.not_mem_nil,
    or_false] at hk
  rcases hk with h | h | h | h | h | h | h | h | h | h | h | h | h | h <;> subst h <;> rfl

theorem google_keys_lower (d : Deps) :
    ∀ k ∈ google.models.map Prod.fst, strings.ToLower d k = k := by
  intro k hk
  simp only [google.models, List.map, List.mem_cons, List.mem_singleton, List.not_mem_nil,
    or_false] at hk
  rcases hk with h | h | h <;> subst h <;> rfl

theorem catalogs_disjoint :
    ∀ k ∈ openai.models.map Prod.fst, k ∉ google.models.map Prod.fst := by
  decide

theorem openai_SupportsModel_iff (d : Deps) (m : String) :
    openai.SupportsModel d m = true ↔ strings.ToLower d m ∈ openai.models.map Prod.fst :=
  lookup_isSome_iff _ _

theorem google_SupportsModel_iff (d : Deps) (m : String) :
    google.SupportsModel d m = true ↔ strings.ToLower d m ∈ google.models.map Prod.fst :=
  lookup_isSome_iff _ _

theorem registry_supports_iff (d : Deps) (m : String) :
    (∀ q ∈ tokenizer.registry d, q.SupportsModel m = false) ↔
      strings.ToLower d m ∉ openai.models.map Prod.fst ∧
      strings.ToLower d m ∉ google.models.map Prod.fst := by
  rw [← openai_SupportsModel_iff, ← google_SupportsModel_iff]
  simp [tokenizer.registry, openai.New, google.New]

/-! ## Resolution lemmas shared by the dispatcher and the metadata lookup -/

namespace tokenizer

open providers

theorem first_match_agree (reg : List Provider) (m : String) :
    ∀ pre p post, reg = pre ++ p :: post →
      (∀ q ∈ pre, q.SupportsModel m = false) → p.SupportsModel m = true →
      GetProviderInfo reg m = (p.Name, p.IsExact, true) ∧
      ∀ text, CountTokens reg text m =
        (p.CountTokens text m).map (fun n =>
          { Model := m, Provider := p.Name, TokenCount := n, IsEstimate := !p.IsExact }) := by
  intro pre p post hsplit hpre hp
  subst hsplit
  refine ⟨?_, fun text => ?_⟩
  · rw [GetProviderInfo_skip pre (p :: post) m hpre, GetProviderInfo]
    simp [hp]
  · rw [CountTokens_skip pre (p :: post) text m hpre, CountTokens_head p post text m hp]

theorem GetProviderInfo_eq_none_iff (reg : List Provider) (m : String) :
    GetProviderInfo reg m = ("", false, false) ↔ ∀ q ∈ reg, q.SupportsModel m = false := by
  refine ⟨?_, GetProviderInfo_none reg m⟩
  intro hinfo
  rcases first_supporter reg m with hnone | ⟨pre, p, post, hsplit, hpre, hp⟩
  · exact hnone
  · rw [(first_match_agree reg m pre p post hsplit hpre hp).1] at hinfo
    simp at hinfo

/-- When no supporting provider fails with the dispatcher's own message, not being
found and failing with that message coincide. -/
theorem GetProviderInfo_none_iff_error (reg : List Provider) (m : String)
    (hdiff : ∀ p ∈ reg, p.SupportsModel m = true → ∀ text,
      p.CountTokens text m ≠ .error (unsupportedModel m)) (text : String) :
    GetProviderInfo reg m = ("", false, false) ↔
      CountTokens reg text m = .error (unsupportedModel m) := by
  rw [GetProviderInfo_eq_none_iff]
  refine ⟨CountTokens_none reg text m, ?_⟩
  intro herr
  rcases first_supporter reg m with hnone | ⟨pre, p, post, hsplit, hpre, hp⟩
  · exact hnone
  · exfalso
    have hmem : p ∈ reg := by rw [hsplit]; simp
    rw [(first_match_agree reg m pre p post hsplit hpre hp).2 text] at herr
    cases hc : p.CountTokens text m with
    | error e =>
      rw [hc] at herr
      simp only [Except.map] at herr
      exact hdiff p hmem hp text (hc.trans (congrArg Except.error (Except.error.inj herr)))
    | ok n =>
      rw [hc] at herr
      simp [Except.map] at herr

end tokenizer

theorem openai_errors_differ (d : Deps) (text m : String) :
    openai.CountTokens d text m ≠ .error (tokenizer.unsupportedModel m) := by
  unfold openai.CountTokens
  cases openai.models.lookup (strings.ToLower d m) with
  | none =>
    intro h
    have h2 := congrArg (fun s => s.data.get? 12) (Except.error.inj h)
    simp [tokenizer.unsupportedModel] at h2
  | some cfg =>
    dsimp only
    cases d.GetEncoding cfg.encoding with
    | error err =>
      dsimp only
      intro h
      have h2 := congrArg (fun s => s.data.head?) (Except.error.inj h)
      simp [tokenizer.unsupportedModel] at h2
    | ok tke =>
      dsimp only
      intro h
      cases h

theorem google_errors_differ (d : Deps) (text m : String) :
    google.CountTokens d text m ≠ .error (tokenizer.unsupportedModel m) := by
  unfold google.CountTokens
  cases google.models.lookup (strings.ToLower d m) with
  | none =>
    intro h
    have h2 := congrArg (fun s => s.data.get? 12) (Except.error.inj h)
    simp [tokenizer.unsupportedModel] at h2
  | some vertexModel =>
    dsimp only
    cases d.NewTokenizer vertexModel with
    | error err =>
      dsimp only
      intro h
      have h2 := congrArg (fun s => s.data.head?) (Except.error.inj h)
      simp [tokenizer.unsupportedModel] at h2
    | ok tok =>
      dsimp only
      cases tok text with
      | error err =>
        dsimp only
        intro h
        have h2 := congrArg (fun s => s.data.head?) (Except.error.inj h)
        simp [tokenizer.unsupportedModel] at h2
      | ok totalTokens =>
        dsimp only
        intro h
        cases h

theorem registry_errors_differ (d : Deps) (m : String) :
    ∀ p ∈ tokenizer.registry d, p.SupportsModel m = true → ∀ text,
      p.CountTokens text m ≠ .error (tokenizer.unsupportedModel m) := by
  intro p hp _ text
  simp only [tokenizer.registry, List.mem_cons, List.mem_singleton, List.not_mem_nil,
    or_false] at hp
  rcases hp with rfl | rfl
  · exact openai_errors_differ d text m
  · exact google_errors_differ d text m

/-! ## Claims about the dispatcher -/

namespace tokenizer

open providers

/-- C2, unsupported model: when no provider of the registry supports `m`, the
dispatcher returns no result and fails with the message
`"unsupported model: " ++ m ++ ". Use --list to see supported models"`, for every
text; the message contains `m`; in the shipped registry this is the case for every
`m` whose lower-cased form is in neither catalog, such as `"invalid-model-xyz"` and
`"nonexistent-model"`. -/
theorem CountTokens_unsupported (reg : List Provider) (d : Deps) (text m : String)
    (hnone : ∀ q ∈ reg, q.SupportsModel m = false) :
    CountTokens reg text m =
        .error ("unsupported model: " ++ m ++ ". Use --list to see supported models") ∧
    (∃ a b : String,
        "unsupported model: " ++ m ++ ". Use --list to see supported models" = a ++ m ++ b) ∧
    (strings.ToLower d m ∉ openai.models.map Prod.fst ∧
        strings.ToLower d m ∉ google.models.map Prod.fst →
      CountTokens (registry d) text m =
        .error ("unsupported model: " ++ m ++ ". Use --list to see supported models")) ∧
    CountTokens (registry d) text "invalid-model-xyz" =
        .error "unsupported model: invalid-model-xyz. Use --list to see supported models" ∧
    CountTokens (registry d) text "nonexistent-model" =
        .error "unsupported model: nonexistent-model. Use --list to see supported models" := by
  refine ⟨CountTokens_none reg text m hnone, ⟨"unsupported model: ", _, rfl⟩, ?_, rfl, rfl⟩
  intro h
  exact CountTokens_none (registry d) text m ((registry_supports_iff d m).2 h)

/-- Instance of C2: a one-provider registry asked for a model outside its catalog,
with the empty text. -/
theorem CountTokens_unsupported_witness :
    CountTokens [stubProvider "A" ["a"] true (.ok 1)] "" "b" =
      .error "unsupported model: b. Use --list to see supported models" :=
  (CountTokens_unsupported [stubProvider "A" ["a"] true (.ok 1)] sampleDeps "" "b"
    (by decide)).1

/-- C4, same resolution as `CountTokens`: if `p` is the first provider supporting `m`,
`GetProviderInfo` returns its name and exactness with `found = true`, and `CountTokens`
returns, for every text, the outcome of that same `p.CountTokens` (wrapped into a result
on success, unchanged on failure). `GetProviderInfo` returns `("", false, false)` exactly
when no provider supports `m`, and then `CountTokens` fails with the unsupported-model
error. In every registry whose supporting providers do not themselves fail with the
dispatcher's own error, and so in the shipped registry for every environment, text and
model, `GetProviderInfo` returns `("", false, false)` exactly when `CountTokens` fails
with the unsupported-model error. -/
theorem GetProviderInfo_first_match (reg : List Provider) (m : String) (d : Deps) :
    (∀ pre p post, reg = pre ++ p :: post →
        (∀ q ∈ pre, q.SupportsModel m = false) → p.SupportsModel m = true →
        GetProviderInfo reg m = (p.Name, p.IsExact, true) ∧
        ∀ text, CountTokens reg text m =
          (p.CountTokens text m).map (fun n =>
            { Model := m, Provider := p.Name, TokenCount := n, IsEstimate := !p.IsExact })) ∧
    (GetProviderInfo reg m = ("", false, false) ↔ ∀ q ∈ reg, q.SupportsModel m = false) ∧
    ((∀ q ∈ reg, q.SupportsModel m = false) →
        ∀ text, CountTokens reg text m =
          .error ("unsupported model: " ++ m ++ ". Use --list to see supported models")) ∧
    ((∀ p ∈ reg, p.SupportsModel m = true → ∀ text,
          p.CountTokens text m ≠
            .error ("unsupported model: " ++ m ++ ". Use --list to see supported models")) →
        ∀ text, (GetProviderInfo reg m = ("", false, false) ↔
          CountTokens reg text m =
            .error ("unsupported model: " ++ m ++ ". Use --list to see supported models"))) ∧
    (∀ text, (GetProviderInfo (registry d) m = ("", false, false) ↔
        CountTokens (registry d) text m =
          .error ("unsupported model: " ++ m ++ ". Use --list to see supported models"))) :=
  ⟨first_match_agree reg m, GetProviderInfo_eq_none_iff reg m,
   fun hnone text => CountTokens_none reg text m hnone,
   GetProviderInfo_none_iff_error reg m,
   GetProviderInfo_none_iff_error (registry d) m (registry_errors_differ d m)⟩

/-- Instance of C4 on a three-provider registry whose second and third providers both
support `"m"`: the second one is reported, an unknown name is not found, and not being
found coincides with the unsupported-model error. -/
theorem GetProviderInfo_first_match_witness :
    GetProviderInfo
        [stubProvider "A" ["a"] true (.ok 1),
         stubProvider "B" ["m"] false (.ok 7),
         stubProvider "C" ["m"] true (.ok 9)] "m"
      = ("B", false, true) ∧
    GetProviderInfo
        [stubProvider "A" ["a"] true (.ok 1),
         stubProvider "B" ["m"] false (.ok 7),
         stubProvider "C" ["m"] true (.ok 9)] "zzz"
      = ("", false, false) ∧
    (GetProviderInfo
        [stubProvider "A" ["a"] true (.ok 1),
         stubProvider "B" ["m"] false (.ok 7),
         stubProvider "C" ["m"] true (.ok 9)] "zzz"
      = ("", false, false) ↔
     CountTokens
        [stubProvider "A" ["a"] true (.ok 1),
         stubProvider "B" ["m"] false (.ok 7),
         stubProvider "C" ["m"] true (.ok 9)] "hello" "zzz"
      = .error "unsupported model: zzz. Use --list to see supported models") :=
  ⟨((GetProviderInfo_first_match
      [stubProvider "A" ["a"] true (.ok 1),
       stubProvider "B" ["m"] false (.ok 7),
       stubProvider "C" ["m"] true (.ok 9)] "m" sampleDeps).1
      [stubProvider "A" ["a"] true (.ok 1)] (stubProvider "B" ["m"] false (.ok 7))
      [stubProvider "C" ["m"] true (.ok 9)] rfl (by decide) (by decide)).1,
   (GetProviderInfo_first_match
      [stubProvider "A" ["a"] true (.ok 1),
       stubProvider "B" ["m"] false (.ok 7),
       stubProvider "C" ["m"] true (.ok 9)] "zzz" sampleDeps).2.1.2 (by decide),
   (GetProviderInfo_first_match
      [stubProvider "A" ["a"] true (.ok 1),
       stubProvider "B" ["m"] false (.ok 7),
       stubProvider "C" ["m"] true (.ok 9)] "zzz" sampleDeps).2.2.2.1
      (by
        intro p hp _ text
        simp only [List.mem_cons, List.mem_singleton, List.not_mem_nil, or_false] at hp
        rcases hp with rfl | rfl | rfl <;> simp [stubProvider])
      "hello"⟩

end tokenizer

/-! ## Claims about the listing -/

namespace tokenizer

open providers

/-- C6, the sorted catalogue: in a registry whose providers have pairwise distinct
names, the keys of `ListModels` are exactly the providers' names, and the entry of
each provider `p` is a permutation of `p.Models`, in increasing order, and is the
sorted form of every rearrangement of `p.Models`. In the shipped registry (whatever
order `range` enumerates the catalogs in) the keys are exactly `"OpenAI"` and
`"Google"` and both lists are non-empty. -/
theorem ListModels_sorted_catalogue (reg : List Provider)
    (hnames : (reg.map (fun p => p.Name)).Nodup)
    (d : Deps) (hrange : ∀ keys, (d.rangeOrder keys).Perm keys) :
    (∀ k, (ListModels reg k).isSome = true ↔ ∃ p ∈ reg, p.Name = k) ∧
    (∀ p ∈ reg, ∃ l, ListModels reg p.Name = some l ∧ l.Perm p.Models ∧
        l.Sorted (fun a b => a ≤ b) ∧
        ∀ enumeration : List String, enumeration.Perm p.Models →
          sort.Strings enumeration = l) ∧
    (∀ k, (ListModels (registry d) k).isSome = true ↔ k = "OpenAI" ∨ k = "Google") ∧
    (∃ l, ListModels (registry d) "OpenAI" = some l ∧ l ≠ []) ∧
    (∃ l, ListModels (registry d) "Google" = some l ∧ l ≠ []) := by
  refine ⟨ListModels_keys reg, ?_, ?_, ?_, ?_⟩
  · intro p hp
    obtain ⟨pre, post, hsplit⟩ := List.append_of_mem hp
    subst hsplit
    have hpost : ∀ q ∈ post, q.Name ≠ p.Name := by
      intro q hq hqp
      rw [List.map_append, List.map_cons] at hnames
      have h2 := (List.nodup_cons.1 (List.nodup_append.1 hnames).2.1).1
      exact h2 (List.mem_map.2 ⟨q, hq, hqp⟩)
    exact ⟨_, ListModels_last pre post p hpost, sort_Strings_perm _, sort_Strings_sorted _,
      fun e he => sort_Strings_of_perm e p.Models he⟩
  · intro k
    rw [ListModels_keys]
    simp only [registry, openai.New, google.New, openai.Name, google.Name, List.mem_cons,
      List.mem_singleton, List.not_mem_nil, or_false, exists_eq_or_imp, exists_eq_left]
    constructor
    · rintro (h | h)
      · exact Or.inl h.symm
      · exact Or.inr h.symm
    · rintro (h | h)
      · exact Or.inl h.symm
      · exact Or.inr h.symm
  · refine ⟨_, ListModels_last [] [google.New d] (openai.New d) (by simp [openai.New, google.New, openai.Name, google.Name]), ?_⟩
    intro hnil
    have hperm := ((sort_Strings_perm (openai.New d).Models).trans (hrange _))
    rw [hnil] at hperm
    exact absurd hperm.length_eq (by decide)
  · refine ⟨_, ListModels_last [openai.New d] [] (google.New d) (by simp), ?_⟩
    intro hnil
    have hperm := ((sort_Strings_perm (google.New d).Models).trans (hrange _))
    rw [hnil] at hperm
    exact absurd hperm.length_eq (by decide)

/-- C10, last-wins on duplicate names: whenever `p` is the last provider of the
registry named `p.Name` (earlier providers may carry the same name), the entry of
`ListModels` under that name is exactly the sorted `p.Models`; the entries under every
other key are those of the registry with all providers of that name removed. -/
theorem ListModels_last_wins (pre post : List Provider) (p : Provider)
    (hpost : ∀ q ∈ post, q.Name ≠ p.Name) :
    ListModels (pre ++ p :: post) p.Name = some (sort.Strings p.Models) ∧
    ∀ k, k ≠ p.Name →
      ListModels (pre ++ p :: post) k =
        ListModels ((pre ++ p :: post).filter (fun q => decide (q.Name ≠ p.Name))) k :=
  ⟨ListModels_last pre post p hpost,
   fun k hk => foldl_set_filter (pre ++ p :: post) ModelMap.empty ModelMap.empty p.Name k hk rfl⟩

end tokenizer

namespace tokenizer

open providers

/-- Instance of C6: two providers with distinct names, the first enumerating its
catalog out of order, and the shipped registry in the sample environment. -/
theorem ListModels_sorted_catalogue_witness :
    (∀ k, (ListModels [stubProvider "A" ["b", "a"] true (.ok 1),
                       stubProvider "B" ["c"] true (.ok 1)] k).isSome = true ↔
        ∃ p ∈ [stubProvider "A" ["b", "a"] true (.ok 1),
               stubProvider "B" ["c"] true (.ok 1)], p.Name = k) ∧
    (∀ k, (ListModels (registry sampleDeps) k).isSome = true ↔ k = "OpenAI" ∨ k = "Google") ∧
    (∃ l, ListModels (registry sampleDeps) "OpenAI" = some l ∧ l ≠ []) :=
  ⟨(ListModels_sorted_catalogue
      [stubProvider "A" ["b", "a"] true (.ok 1), stubProvider "B" ["c"] true (.ok 1)]
      (by decide) sampleDeps sampleDeps_range).1,
   (ListModels_sorted_catalogue
      [stubProvider "A" ["b", "a"] true (.ok 1), stubProvider "B" ["c"] true (.ok 1)]
      (by decide) sampleDeps sampleDeps_range).2.2.1,
   (ListModels_sorted_catalogue
      [stubProvider "A" ["b", "a"] true (.ok 1), stubProvider "B" ["c"] true (.ok 1)]
      (by decide) sampleDeps sampleDeps_range).2.2.2.1⟩

/-- Instance of C10: two providers named `"Dup"` around a provider named `"Other"`;
the entry under `"Dup"` holds the models of the later one only. -/
theorem ListModels_last_wins_witness :
    ListModels
        [stubProvider "Dup" ["b", "a"] true (.ok 1),
         stubProvider "Other" ["z"] true (.ok 1),
         stubProvider "Dup" ["d", "c"] true (.ok 1)] "Dup"
      = some ["c", "d"] :=
  (ListModels_last_wins [stubProvider "Dup" ["b", "a"] true (.ok 1),
      stubProvider "Other" ["z"] true (.ok 1)] [] (stubProvider "Dup" ["d", "c"] true (.ok 1))
    (by decide)).1.trans (by
      have h : ¬ (("d" : String) ≤ "c") := by rw [String.le_iff_toList_le]; decide
      simp [stubProvider, sort.Strings, List.insertionSort, List.orderedInsert, h])

end tokenizer

/-! ## Claims about the shipped registry -/

namespace tokenizer

open providers

/-- C5, every catalogued model resolves to its own provider: in the shipped registry,
for every provider `p` and every `m` enumerated by `p.Models`, `GetProviderInfo m`
is `(p.Name, true, true)`; every catalog key is its own lower-case form and the two
catalogs share no key. -/
theorem GetProviderInfo_catalogued (d : Deps)
    (hrange : ∀ keys, (d.rangeOrder keys).Perm keys)
    (p : Provider) (hp : p ∈ registry d) (m : String) (hm : m ∈ p.Models) :
    GetProviderInfo (registry d) m = (p.Name, true, true) ∧
    (∀ k ∈ openai.models.map Prod.fst, strings.ToLower d k = k) ∧
    (∀ k ∈ google.models.map Prod.fst, strings.ToLower d k = k) ∧
    (∀ k ∈ openai.models.map Prod.fst, k ∉ google.models.map Prod.fst) := by
  refine ⟨?_, openai_keys_lower d, google_keys_lower d, catalogs_disjoint⟩
  simp only [registry, List.mem_cons, List.mem_singleton, List.not_mem_nil, or_false] at hp
  rcases hp with rfl | rfl
  · have hk : m ∈ openai.models.map Prod.fst := (hrange _).mem_iff.1 hm
    simp only [openai.models, List.map, List.mem_cons, List.mem_singleton, List.not_mem_nil,
      or_false] at hk
    rcases hk with h | h | h | h | h | h | h | h | h | h | h | h | h | h <;> subst h <;> rfl
  · have hk : m ∈ google.models.map Prod.fst := (hrange _).mem_iff.1 hm
    simp only [google.models, List.map, List.mem_cons, List.mem_singleton, List.not_mem_nil,
      or_false] at hk
    rcases hk with h | h | h <;> subst h <;> rfl

/-- Instance of C5: a Google model in the sample environment. -/
theorem GetProviderInfo_catalogued_witness :
    GetProviderInfo (registry sampleDeps) "gemini-1.5-pro" = ("Google", true, true) :=
  (GetProviderInfo_catalogued sampleDeps sampleDeps_range (google.New sampleDeps)
    (by simp [registry]) "gemini-1.5-pro" (by decide)).1

/-- C7, default model invariant: `GetDefaultModel` is `"gpt-4.1"`; it occurs in the
list of `ListModels` under `"OpenAI"`; `GetProviderInfo` finds it; and `CountTokens`
with the default model never fails with the unsupported-model message. -/
theorem default_model_listed (d : Deps)
    (hrange : ∀ keys, (d.rangeOrder keys).Perm keys) :
    GetDefaultModel = "gpt-4.1" ∧
    (∃ l, ListModels (registry d) "OpenAI" = some l ∧ GetDefaultModel ∈ l) ∧
    GetProviderInfo (registry d) GetDefaultModel = ("OpenAI", true, true) ∧
    ∀ text, CountTokens (registry d) text GetDefaultModel ≠
      .error ("unsupported model: " ++ GetDefaultModel ++ ". Use --list to see supported models") := by
  refine ⟨rfl, ?_, rfl, ?_⟩
  · refine ⟨_, ListModels_last [] [google.New d] (openai.New d) (by simp [openai.New, google.New, openai.Name, google.Name]), ?_⟩
    apply (sort_Strings_perm _).mem_iff.2
    apply (hrange _).mem_iff.2
    decide
  · intro text
    have hsup : (openai.New d).SupportsModel GetDefaultModel = true := rfl
    have hhead := CountTokens_head (openai.New d) [google.New d] text GetDefaultModel hsup
    have hreg : registry d = [openai.New d, google.New d] := rfl
    rw [hreg, hhead]
    have hcount : (openai.New d).CountTokens text GetDefaultModel =
        match d.GetEncoding "o200k_base" with
        | .error err => .error ("failed to get encoding " ++ "o200k_base" ++ ": " ++ err)
        | .ok tke => .ok ((tke text).length : Int) := rfl
    rw [hcount]
    cases d.GetEncoding "o200k_base" with
    | error err =>
      intro h
      have h2 := congrArg (fun s => s.data.head?) (Except.error.inj h)
      simp [GetDefaultModel, DefaultModel] at h2
    | ok tke =>
      intro h
      simp [Except.map] at h

/-- Instance of C7 in the sample environment. -/
theorem default_model_listed_witness :
    ∃ l, ListModels (registry sampleDeps) "OpenAI" = some l ∧ GetDefaultModel ∈ l :=
  (default_model_listed sampleDeps sampleDeps_range).2.1

end tokenizer

namespace tokenizer

open providers

/-- C8, case-insensitive matching: for both shipped providers `SupportsModel m` holds
exactly when the lower-cased `m` is a key of the catalog; with an idempotent rune
lower-casing, `SupportsModel m = SupportsModel (lower m)`; and in the shipped registry
`GetProviderInfo` agrees on any two names with the same lower-cased form, so
`"GPT-4.1"` and `"gpt-4.1"` both resolve to `("OpenAI", true, true)`. -/
theorem SupportsModel_case_insensitive (d : Deps)
    (hidem : ∀ r, unicode.ToLower d (unicode.ToLower d r) = unicode.ToLower d r)
    (m m2 : String) :
    (openai.SupportsModel d m = true ↔ strings.ToLower d m ∈ openai.models.map Prod.fst) ∧
    (google.SupportsModel d m = true ↔ strings.ToLower d m ∈ google.models.map Prod.fst) ∧
    openai.SupportsModel d m = openai.SupportsModel d (strings.ToLower d m) ∧
    google.SupportsModel d m = google.SupportsModel d (strings.ToLower d m) ∧
    (strings.ToLower d m = strings.ToLower d m2 →
      GetProviderInfo (registry d) m = GetProviderInfo (registry d) m2) ∧
    GetProviderInfo (registry d) "GPT-4.1" = ("OpenAI", true, true) ∧
    GetProviderInfo (registry d) "gpt-4.1" = ("OpenAI", true, true) := by
  refine ⟨openai_SupportsModel_iff d m, google_SupportsModel_iff d m, ?_, ?_, ?_, rfl, rfl⟩
  · unfold openai.SupportsModel
    rw [ToLower_idem d hidem]
  · unfold google.SupportsModel
    rw [ToLower_idem d hidem]
  · intro h
    simp only [registry, GetProviderInfo, openai.New, google.New, openai.SupportsModel,
      google.SupportsModel, h]

/-- Instance of C8 in the sample environment, on a name with capitals. -/
theorem SupportsModel_case_insensitive_witness :
    GetProviderInfo (registry sampleDeps) "Gemini-1.5-PRO" =
      GetProviderInfo (registry sampleDeps) "gemini-1.5-pro" ∧
    openai.SupportsModel sampleDeps "O3-Mini" =
      openai.SupportsModel sampleDeps (strings.ToLower sampleDeps "O3-Mini") :=
  ⟨(SupportsModel_case_insensitive sampleDeps sampleDeps_idem
      "Gemini-1.5-PRO" "gemini-1.5-pro").2.2.2.2.1 rfl,
   (SupportsModel_case_insensitive sampleDeps sampleDeps_idem
      "O3-Mini" "gemini-1.5-pro").2.2.1⟩

/-- C9, evaluated on the code: the shipped registry consists of the two providers
named `"OpenAI"` and `"Google"`, both exact; `"claude-3-5-sonnet"` and `"llama-3"` are
not resolved; no model name resolves to an inexact provider, and no successful
`CountTokens` returns an estimate. -/
theorem registry_has_no_estimating_provider (d : Deps) :
    (registry d).map (fun p => p.Name) = ["OpenAI", "Google"] ∧
    (registry d).map (fun p => p.IsExact) = [true, true] ∧
    GetProviderInfo (registry d) "claude-3-5-sonnet" = ("", false, false) ∧
    GetProviderInfo (registry d) "llama-3" = ("", false, false) ∧
    (∀ text, CountTokens (registry d) text "claude-3-5-sonnet" =
      .error "unsupported model: claude-3-5-sonnet. Use --list to see supported models") ∧
    (∀ m, ¬ ((GetProviderInfo (registry d) m).2.2 = true ∧
             (GetProviderInfo (registry d) m).2.1 = false)) ∧
    (∀ text m, ¬ ∃ r, CountTokens (registry d) text m = .ok r ∧ r.IsEstimate = true) := by
  refine ⟨rfl, rfl, rfl, rfl, fun _ => rfl, ?_, ?_⟩
  · intro m
    rcases first_supporter (registry d) m with hnone | ⟨pre, p, post, hsplit, hpre, hp⟩
    · rw [GetProviderInfo_none (registry d) m hnone]
      simp
    · have hmem : p ∈ registry d := by rw [hsplit]; simp
      have hexact : p.IsExact = true := by
        simp only [registry, List.mem_cons, List.mem_singleton, List.not_mem_nil, or_false] at hmem
        rcases hmem with rfl | rfl <;> rfl
      rw [hsplit, GetProviderInfo_skip pre (p :: post) m hpre, GetProviderInfo]
      simp [hp, hexact]
  · rintro text m ⟨r, hr, hest⟩
    rcases first_supporter (registry d) m with hnone | ⟨pre, p, post, hsplit, hpre, hp⟩
    · rw [CountTokens_none (registry d) text m hnone] at hr
      cases hr
    · have hmem : p ∈ registry d := by rw [hsplit]; simp
      have hexact : p.IsExact = true := by
        simp only [registry, List.mem_cons, List.mem_singleton, List.not_mem_nil, or_false] at hmem
        rcases hmem with rfl | rfl <;> rfl
      rw [hsplit, CountTokens_skip pre (p :: post) text m hpre,
        CountTokens_head p post text m hp] at hr
      cases hc : p.CountTokens text m with
      | error e =>
        rw [hc] at hr
        simp [Except.map] at hr
      | ok n =>
        rw [hc] at hr
        simp only [Except.map] at hr
        have h3 := Except.ok.inj hr
        rw [← h3, hexact] at hest
        simp at hest

end tokenizer
